import Mathlib

/-!
Shallow embedding of the snowflake growth simulator in `src/snowflake.c`
(Reiter cellular-automaton model on a 16×16 grid of flat-top hexagons,
"odd-q" offset coordinates), together with proofs and refutations of the
specification's claims about it.

Embedding conventions:
- The C `float` arithmetic is modelled by exact rational arithmetic (`ℚ`).
- The three parallel arrays `s`, `u`, `frozen` of 256 cells are modelled as
  `List`s of length 256; the C index expression `y * GRID_SIZE + x` becomes
  `get_index`.  A C write loop `for y { for x { a[idx] = f(x,y) } }` that
  writes every index exactly once is modelled by `mkGrid f`, the list whose
  entry at index `i` is `f (i % 16) (i / 16)`.
- The C functions `get_hex_neighbors`, `is_boundary_cell`, `init_snowflake`
  (reset) and `grow_snowflake` (step) are translated one to one.
- `grow_snowflake_alloc` additionally models the three `malloc` calls of
  `grow_snowflake`: each Boolean says whether the corresponding allocation
  (`u_new`, `s_new`, `frozen_new`) succeeds, and the early `return`s of the
  C code are reproduced.  `grow_snowflake` is the all-allocations-succeed
  instance.  The C function returns `void`, so the model returns only the
  successor state: there is no error channel to the caller.
-/

set_option maxHeartbeats 4000000

namespace Snowflake

/-- Grid side length, `#define GRID_SIZE 16`. -/
def GRID_SIZE : ℤ := 16

/-- Flat index of cell `(x, y)`: C `get_index`, `y * GRID_SIZE + x`. -/
def get_index (x y : ℤ) : Nat := (y * GRID_SIZE + x).toNat

/-- Bounds check `0 <= x < GRID_SIZE && 0 <= y < GRID_SIZE` used for neighbor
accesses in the C code. -/
def inBounds (x y : ℤ) : Bool := 0 ≤ x && x < GRID_SIZE && 0 ≤ y && y < GRID_SIZE

/-- Border-ring test used (inline, three times) in the C code:
`x < 2 || x >= GRID_SIZE - 2 || y < 2 || y >= GRID_SIZE - 2`. -/
def isBorder (x y : ℤ) : Bool :=
  x < 2 || GRID_SIZE - 2 ≤ x || y < 2 || GRID_SIZE - 2 ≤ y

/-- A grid built by a full `for y { for x { ... } }` write loop: the entry at
flat index `i` is `f (i % 16) (i / 16)`. -/
def mkGrid {α : Type} (f : ℤ → ℤ → α) : List α :=
  (List.range 256).map fun i : ℕ => f ((i : ℤ) % 16) ((i : ℤ) / 16)

/-- C `get_hex_neighbors`: the six neighbors of `(x, y)` in the odd-q
flat-top hexagon layout.  The C test `x % 2 == 0` agrees with `x % 2 = 0`
on `ℤ` (both hold exactly for even `x`). -/
def get_hex_neighbors (x y : ℤ) : List (ℤ × ℤ) :=
  if x % 2 = 0 then
    [(x, y - 1), (x + 1, y - 1), (x + 1, y), (x, y + 1), (x - 1, y), (x - 1, y - 1)]
  else
    [(x, y - 1), (x + 1, y), (x + 1, y + 1), (x, y + 1), (x - 1, y + 1), (x - 1, y)]

/-- C `is_boundary_cell`: an unfrozen, non-border cell with at least one
frozen in-bounds hex neighbor. -/
def is_boundary_cell (frozen : List Bool) (x y : ℤ) : Bool :=
  if frozen.getD (get_index x y) false then false
  else if isBorder x y then false
  else (get_hex_neighbors x y).any fun p =>
    inBounds p.1 p.2 && frozen.getD (get_index p.1 p.2) false

/-- The simulation state: the three cell arrays, the step counter, and the
three tunable parameters, exactly the fields of the C `SnowflakeState` that
the automaton reads or writes (the UI-only fields are omitted). -/
structure SnowflakeState where
  s : List ℚ
  u : List ℚ
  frozen : List Bool
  step : ℤ
  alpha : ℚ
  beta : ℚ
  gamma : ℚ
deriving DecidableEq

/-- C `init_snowflake` (reset): every cell gets `s = beta`, `u = 0`,
`frozen = false`; then the center cell `(8, 8)` is frozen with `s = 1`;
the step counter becomes 0.  Parameters are those currently in the state. -/
def init_snowflake (alpha beta gamma : ℚ) : SnowflakeState :=
  { s := (mkGrid fun _ _ => beta).set (get_index 8 8) 1
    u := mkGrid fun _ _ => (0 : ℚ)
    frozen := (mkGrid fun _ _ => false).set (get_index 8 8) true
    step := 0
    alpha := alpha, beta := beta, gamma := gamma }

/-- The receptiveness test `state->frozen[idx] || is_boundary_cell(state, x, y)`
computed (twice) by `grow_snowflake`. -/
def receptive (frozen : List Bool) (x y : ℤ) : Bool :=
  frozen.getD (get_index x y) false || is_boundary_cell frozen x y

/-- Step 1 of `grow_snowflake`: classification.  Receptive cells get `u = 0`,
all others `u = s`.  (The C loop writes `state->u` in place but reads only
`s` and `frozen`, so it is a pure map.) -/
def phase1 (st : SnowflakeState) : List ℚ :=
  mkGrid fun x y =>
    if receptive st.frozen x y then 0 else st.s.getD (get_index x y) 0

/-- The in-bounds hex neighbors of a cell, in the order the C loop visits
them. -/
def neighborsIn (x y : ℤ) : List (ℤ × ℤ) :=
  (get_hex_neighbors x y).filter fun p => inBounds p.1 p.2

/-- Step 2 of `grow_snowflake`: diffusion into the fresh buffer `u_new`.
Border cells are pinned to `beta`; every other cell moves toward the average
of its in-bounds neighbors by the factor `alpha / 2`. -/
def diffuse (alpha beta : ℚ) (u : List ℚ) : List ℚ :=
  mkGrid fun x y =>
    if isBorder x y then beta
    else
      let ns := neighborsIn x y
      let total := (ns.map fun p => u.getD (get_index p.1 p.2) 0).sum
      let count := ns.length
      let avg := if 0 < count then total / (count : ℚ) else u.getD (get_index x y) 0
      u.getD (get_index x y) 0 + alpha / 2 * (avg - u.getD (get_index x y) 0)

/-- The `s_new` buffer of step 3 of `grow_snowflake`, computed from the state
after `u_new` has been committed to `state->u` (so `st.u` here is the
diffused vapor) but with `s` and `frozen` still the pre-step values. -/
def sNewGrid (st : SnowflakeState) : List ℚ :=
  mkGrid fun x y =>
    if isBorder x y then st.beta
    else if receptive st.frozen x y then
      st.u.getD (get_index x y) 0 + st.s.getD (get_index x y) 0 + st.gamma
    else st.u.getD (get_index x y) 0

/-- The `frozen_new` buffer of step 3 of `grow_snowflake`: it starts as a copy
of `frozen`, border cells are forced to unfrozen, and a receptive unfrozen
cell whose `s_new` reaches 1 is marked frozen. -/
def frozenNewGrid (st : SnowflakeState) : List Bool :=
  mkGrid fun x y =>
    if isBorder x y then false
    else if receptive st.frozen x y ∧ st.frozen.getD (get_index x y) false = false ∧
        1 ≤ st.u.getD (get_index x y) 0 + st.s.getD (get_index x y) 0 + st.gamma then
      true
    else st.frozen.getD (get_index x y) false

/-- C `grow_snowflake` (step) with all three `malloc` calls succeeding:
classify, diffuse into `u_new`, commit `u_new` to `u`, compute `s_new` and
`frozen_new` from the committed `u` and the pre-step `s`/`frozen`, commit
both, increment the step counter. -/
def grow_snowflake (st : SnowflakeState) : SnowflakeState :=
  let st1 := { st with u := diffuse st.alpha st.beta (phase1 st) }
  { st1 with s := sNewGrid st1, frozen := frozenNewGrid st1, step := st.step + 1 }

/-- C `grow_snowflake` with explicit allocation outcomes: `okU`, `okS`,
`okF` tell whether the `malloc`s of `u_new`, `s_new`, `frozen_new` succeed.
If `u_new` fails the function returns at once; if `s_new` or `frozen_new`
fails it returns after `u_new` has already been committed to `state->u`.
The C function returns `void`, so no failure indication is produced. -/
def grow_snowflake_alloc (okU okS okF : Bool) (st : SnowflakeState) : SnowflakeState :=
  if okU = false then st
  else
    let st1 := { st with u := diffuse st.alpha st.beta (phase1 st) }
    if okS = false ∨ okF = false then st1
    else { st1 with s := sNewGrid st1, frozen := frozenNewGrid st1, step := st.step + 1 }

/-- Iterated growth steps (the driver pressing OK `n` times). -/
def growN : Nat → SnowflakeState → SnowflakeState
  | 0, st => st
  | n + 1, st => growN n (grow_snowflake st)

/-- The frozen-cell count, as computed by the drawing code
(`for i { if frozen[i] frozen_total++ }`). -/
def frozen_count (st : SnowflakeState) : Nat :=
  st.frozen.foldl (fun n b => if b then n + 1 else n) 0

/-- Parameter update between steps (the UI arrow keys, which clamp each
parameter to its legal interval). -/
def set_params (st : SnowflakeState) (a b g : ℚ) : SnowflakeState :=
  { st with alpha := a, beta := b, gamma := g }

/-- The parameter ranges enforced by the UI:
`alpha ∈ [0.5, 5]`, `beta ∈ [0.1, 0.9]`, `gamma ∈ [0.001, 0.1]`. -/
def validParams (a b g : ℚ) : Prop :=
  1/2 ≤ a ∧ a ≤ 5 ∧ 1/10 ≤ b ∧ b ≤ 9/10 ∧ 1/1000 ≤ g ∧ g ≤ 1/10

instance (a b g : ℚ) : Decidable (validParams a b g) :=
  inferInstanceAs (Decidable (1/2 ≤ a ∧ a ≤ 5 ∧ 1/10 ≤ b ∧ b ≤ 9/10 ∧ 1/1000 ≤ g ∧ g ≤ 1/10))

/-- States reachable by one reset followed by any number of steps, the
parameters being set to arbitrary valid values before each call (the UI can
adjust them between button presses). -/
inductive Reachable : SnowflakeState → Prop where
  | init : ∀ a b g : ℚ, validParams a b g → Reachable (init_snowflake a b g)
  | step : ∀ (st : SnowflakeState) (a b g : ℚ), Reachable st → validParams a b g →
      Reachable (grow_snowflake (set_params st a b g))

/-- Valid parameters with the diffusion rate additionally capped at 2 (the
value at which the coefficient `1 - alpha/2` of a cell's own vapor in the
diffusion update reaches 0). -/
def validParamsCapped (a b g : ℚ) : Prop := validParams a b g ∧ a ≤ 2

instance (a b g : ℚ) : Decidable (validParamsCapped a b g) :=
  inferInstanceAs (Decidable (validParams a b g ∧ a ≤ 2))

/-- States reachable when every call uses valid parameters with `alpha ≤ 2`. -/
inductive ReachableCapped : SnowflakeState → Prop where
  | init : ∀ a b g : ℚ, validParamsCapped a b g → ReachableCapped (init_snowflake a b g)
  | step : ∀ (st : SnowflakeState) (a b g : ℚ), ReachableCapped st → validParamsCapped a b g →
      ReachableCapped (grow_snowflake (set_params st a b g))

/-- The diffused vapor buffer of a step: the value `u_new` holds when it is
committed to `state->u`, before phase 3 reads it. -/
def diffusedU (st : SnowflakeState) : List ℚ :=
  diffuse st.alpha st.beta (phase1 st)

/-- Every entry of a 256-cell grid is nonnegative. -/
def NonnegGrid (l : List ℚ) : Prop := ∀ i : Fin 256, 0 ≤ l.getD i.val 0

instance (l : List ℚ) : Decidable (NonnegGrid l) :=
  inferInstanceAs (Decidable (∀ i : Fin 256, 0 ≤ l.getD i.val 0))

/-- Border cells are unfrozen and carry nonnegative water content. -/
def BorderOK (st : SnowflakeState) : Prop :=
  ∀ x y : ℤ, inBounds x y = true → isBorder x y = true →
    st.frozen.getD (get_index x y) false = false ∧ 0 ≤ st.s.getD (get_index x y) 0

/-- Frozen cells hold water content at least 1. -/
def FrozenOK (st : SnowflakeState) : Prop :=
  ∀ x y : ℤ, inBounds x y = true → st.frozen.getD (get_index x y) false = true →
    1 ≤ st.s.getD (get_index x y) 0

/-- The inductive invariant maintained by reset and step. -/
def Inv (st : SnowflakeState) : Prop := BorderOK st ∧ FrozenOK st

/-- A concrete reachable trajectory: reset with `alpha = 5`, `beta = 0.1`,
`gamma = 0.001` followed by three steps with the same parameters.  At this
point cell `(7, 6)` has negative water content. -/
def traj3 : SnowflakeState := growN 3 (init_snowflake 5 (1/10) (1/1000))

/-! Basic facts about indexing, bounds and the grid constructor. -/

theorem inBounds_iff (x y : ℤ) : inBounds x y = true ↔ 0 ≤ x ∧ x < 16 ∧ 0 ≤ y ∧ y < 16 := by
  simp [inBounds, GRID_SIZE, and_assoc]

theorem isBorder_true_iff (x y : ℤ) :
    isBorder x y = true ↔ x < 2 ∨ 14 ≤ x ∨ y < 2 ∨ 14 ≤ y := by
  simp [isBorder, GRID_SIZE, or_assoc]

theorem isBorder_false_iff (x y : ℤ) :
    isBorder x y = false ↔ 2 ≤ x ∧ x < 14 ∧ 2 ≤ y ∧ y < 14 := by
  rw [← Bool.not_eq_true, isBorder_true_iff]; omega

theorem get_index_lt (x y : ℤ) (h : inBounds x y = true) : get_index x y < 256 := by
  rw [inBounds_iff] at h; unfold get_index GRID_SIZE; omega

theorem mkGrid_getD_nat {α : Type} (f : ℤ → ℤ → α) (d : α) (i : ℕ) (h : i < 256) :
    (mkGrid f).getD i d = f ((i : ℤ) % 16) ((i : ℤ) / 16) := by
  unfold mkGrid
  rw [List.getD_eq_getElem?_getD, List.getElem?_map, List.getElem?_range h]
  rfl

theorem mkGrid_getD {α : Type} (f : ℤ → ℤ → α) (d : α) (x y : ℤ)
    (hx1 : 0 ≤ x) (hx2 : x < 16) (hy1 : 0 ≤ y) (hy2 : y < 16) :
    (mkGrid f).getD (get_index x y) d = f x y := by
  have hlt : get_index x y < 256 := by unfold get_index GRID_SIZE; omega
  rw [mkGrid_getD_nat f d _ hlt]
  have h1 : ((get_index x y : ℕ) : ℤ) = y * 16 + x := by unfold get_index GRID_SIZE; omega
  rw [h1]
  have h2 : (y * 16 + x) % 16 = x := by omega
  have h3 : (y * 16 + x) / 16 = y := by omega
  rw [h2, h3]

theorem mkGrid_length {α : Type} (f : ℤ → ℤ → α) : (mkGrid f).length = 256 := by
  unfold mkGrid
  rw [List.length_map, List.length_range]

theorem getD_set_self {α : Type} (l : List α) (n : ℕ) (v d : α) (h : n < l.length) :
    (l.set n v).getD n d = v := by
  simp [List.getD_eq_getElem?_getD, List.getElem?_set_self h]

theorem getD_set_other {α : Type} (l : List α) (n m : ℕ) (v d : α) (h : n ≠ m) :
    (l.set n v).getD m d = l.getD m d := by
  simp [List.getD_eq_getElem?_getD, List.getElem?_set_ne h]

theorem get_index_eq_iff (x y : ℤ) (h : inBounds x y = true) :
    get_index x y = get_index 8 8 ↔ x = 8 ∧ y = 8 := by
  rw [inBounds_iff] at h; unfold get_index GRID_SIZE; omega

theorem get_index_cancel (i : Fin 256) :
    get_index ((i : ℤ) % 16) ((i : ℤ) / 16) = i.val := by
  have := i.isLt; unfold get_index GRID_SIZE; omega

theorem inBounds_of_fin (i : Fin 256) :
    inBounds ((i : ℤ) % 16) ((i : ℤ) / 16) = true := by
  have := i.isLt; rw [inBounds_iff]; omega

/-! Symmetry of the hexagonal neighbor relation. -/

theorem hex_neighbors_symm (x y a b : ℤ) :
    (a, b) ∈ get_hex_neighbors x y ↔ (x, y) ∈ get_hex_neighbors a b := by
  unfold get_hex_neighbors
  by_cases hx : x % 2 = 0 <;> by_cases ha : a % 2 = 0 <;>
    simp [hx, ha, List.mem_cons, Prod.mk.injEq, List.not_mem_nil] <;> omega

/-! Pointwise characterization of reset and of the three phases of a step. -/

theorem grow_u_def (st : SnowflakeState) : (grow_snowflake st).u = diffusedU st := rfl

theorem grow_step_def (st : SnowflakeState) : (grow_snowflake st).step = st.step + 1 := rfl

theorem grow_alpha_def (st : SnowflakeState) : (grow_snowflake st).alpha = st.alpha := rfl

theorem grow_beta_def (st : SnowflakeState) : (grow_snowflake st).beta = st.beta := rfl

theorem grow_gamma_def (st : SnowflakeState) : (grow_snowflake st).gamma = st.gamma := rfl

theorem grow_s_getD (st : SnowflakeState) (x y : ℤ)
    (hx1 : 0 ≤ x) (hx2 : x < 16) (hy1 : 0 ≤ y) (hy2 : y < 16) :
    (grow_snowflake st).s.getD (get_index x y) 0 =
      if isBorder x y then st.beta
      else if receptive st.frozen x y then
        (diffusedU st).getD (get_index x y) 0 + st.s.getD (get_index x y) 0 + st.gamma
      else (diffusedU st).getD (get_index x y) 0 := by
  show (sNewGrid _).getD _ _ = _
  rw [sNewGrid, mkGrid_getD _ _ _ _ hx1 hx2 hy1 hy2]
  rfl

theorem grow_frozen_getD (st : SnowflakeState) (x y : ℤ)
    (hx1 : 0 ≤ x) (hx2 : x < 16) (hy1 : 0 ≤ y) (hy2 : y < 16) :
    (grow_snowflake st).frozen.getD (get_index x y) false =
      if isBorder x y then false
      else if receptive st.frozen x y ∧ st.frozen.getD (get_index x y) false = false ∧
          1 ≤ (diffusedU st).getD (get_index x y) 0 + st.s.getD (get_index x y) 0 + st.gamma then
        true
      else st.frozen.getD (get_index x y) false := by
  show (frozenNewGrid _).getD _ _ = _
  rw [frozenNewGrid, mkGrid_getD _ _ _ _ hx1 hx2 hy1 hy2]
  rfl

theorem phase1_getD (st : SnowflakeState) (x y : ℤ)
    (hx1 : 0 ≤ x) (hx2 : x < 16) (hy1 : 0 ≤ y) (hy2 : y < 16) :
    (phase1 st).getD (get_index x y) 0 =
      if receptive st.frozen x y then 0 else st.s.getD (get_index x y) 0 := by
  rw [phase1, mkGrid_getD _ _ _ _ hx1 hx2 hy1 hy2]

theorem diffuse_getD (a b : ℚ) (u : List ℚ) (x y : ℤ)
    (hx1 : 0 ≤ x) (hx2 : x < 16) (hy1 : 0 ≤ y) (hy2 : y < 16) :
    (diffuse a b u).getD (get_index x y) 0 =
      if isBorder x y then b
      else
        u.getD (get_index x y) 0 + a / 2 *
          ((if 0 < (neighborsIn x y).length then
              ((neighborsIn x y).map fun p => u.getD (get_index p.1 p.2) 0).sum /
                ((neighborsIn x y).length : ℚ)
            else u.getD (get_index x y) 0) - u.getD (get_index x y) 0) := by
  rw [diffuse, mkGrid_getD _ _ _ _ hx1 hx2 hy1 hy2]

theorem init_s_getD (a b g : ℚ) (x y : ℤ) (h : inBounds x y = true) :
    (init_snowflake a b g).s.getD (get_index x y) 0 =
      if x = 8 ∧ y = 8 then 1 else b := by
  show ((mkGrid fun _ _ => b).set (get_index 8 8) 1).getD (get_index x y) 0 = _
  rw [inBounds_iff] at h
  by_cases hc : x = 8 ∧ y = 8
  · obtain ⟨hcx, hcy⟩ := hc
    subst hcx; subst hcy
    rw [getD_set_self _ _ _ _ (by rw [mkGrid_length]; unfold get_index GRID_SIZE; omega)]
    simp
  · rw [getD_set_other _ _ _ _ _ (by rw [Ne, eq_comm, get_index_eq_iff x y (by rw [inBounds_iff]; omega)]; exact hc),
      mkGrid_getD _ _ _ _ (by omega) (by omega) (by omega) (by omega)]
    simp [hc]

theorem init_frozen_getD (a b g : ℚ) (x y : ℤ) (h : inBounds x y = true) :
    (init_snowflake a b g).frozen.getD (get_index x y) false =
      if x = 8 ∧ y = 8 then true else false := by
  show ((mkGrid fun _ _ => false).set (get_index 8 8) true).getD (get_index x y) false = _
  rw [inBounds_iff] at h
  by_cases hc : x = 8 ∧ y = 8
  · obtain ⟨hcx, hcy⟩ := hc
    subst hcx; subst hcy
    rw [getD_set_self _ _ _ _ (by rw [mkGrid_length]; unfold get_index GRID_SIZE; omega)]
    simp
  · rw [getD_set_other _ _ _ _ _ (by rw [Ne, eq_comm, get_index_eq_iff x y (by rw [inBounds_iff]; omega)]; exact hc),
      mkGrid_getD _ _ _ _ (by omega) (by omega) (by omega) (by omega)]
    simp [hc]

theorem init_u_getD (a b g : ℚ) (x y : ℤ) (h : inBounds x y = true) :
    (init_snowflake a b g).u.getD (get_index x y) 0 = 0 := by
  rw [inBounds_iff] at h
  show (mkGrid fun _ _ => (0 : ℚ)).getD (get_index x y) 0 = 0
  rw [mkGrid_getD _ _ _ _ (by omega) (by omega) (by omega) (by omega)]

/-! Nonnegativity lemmas for the diffusion phase. -/

theorem neighborsIn_mem {x y : ℤ} {p : ℤ × ℤ} (h : p ∈ neighborsIn x y) :
    p ∈ get_hex_neighbors x y ∧ inBounds p.1 p.2 = true := by
  unfold neighborsIn at h
  rw [List.mem_filter] at h
  exact h

theorem nonnegGrid_getD_xy {l : List ℚ} (h : NonnegGrid l) (x y : ℤ)
    (hb : inBounds x y = true) : 0 ≤ l.getD (get_index x y) 0 :=
  h ⟨get_index x y, get_index_lt x y hb⟩

theorem neighbor_sum_nonneg (u : List ℚ) (x y : ℤ)
    (hns : ∀ p ∈ neighborsIn x y, 0 ≤ u.getD (get_index p.1 p.2) 0) :
    0 ≤ ((neighborsIn x y).map fun p => u.getD (get_index p.1 p.2) 0).sum := by
  apply List.sum_nonneg
  intro v hv
  rw [List.mem_map] at hv
  obtain ⟨p, hp, rfl⟩ := hv
  exact hns p hp

theorem diffuse_nonneg_capped (a b : ℚ) (u : List ℚ)
    (ha0 : 0 ≤ a) (ha2 : a ≤ 2) (hb : 0 ≤ b) (hu : NonnegGrid u) :
    NonnegGrid (diffuse a b u) := by
  intro i
  have hx := (inBounds_iff _ _).1 (inBounds_of_fin i)
  rw [← get_index_cancel i,
    diffuse_getD a b u _ _ (by omega) (by omega) (by omega) (by omega)]
  by_cases hbd : isBorder ((i : ℤ) % 16) ((i : ℤ) / 16) = true
  · rw [if_pos hbd]; exact hb
  · rw [if_neg hbd]
    have hu0 : 0 ≤ u.getD (get_index ((i : ℤ) % 16) ((i : ℤ) / 16)) 0 :=
      nonnegGrid_getD_xy hu _ _ (by rw [inBounds_iff]; omega)
    have havg : 0 ≤
        (if 0 < (neighborsIn ((i : ℤ) % 16) ((i : ℤ) / 16)).length then
          ((neighborsIn ((i : ℤ) % 16) ((i : ℤ) / 16)).map fun p =>
            u.getD (get_index p.1 p.2) 0).sum /
            ((neighborsIn ((i : ℤ) % 16) ((i : ℤ) / 16)).length : ℚ)
        else u.getD (get_index ((i : ℤ) % 16) ((i : ℤ) / 16)) 0) := by
      split
      · exact div_nonneg
          (neighbor_sum_nonneg u _ _ fun p hp =>
            nonnegGrid_getD_xy hu p.1 p.2 (neighborsIn_mem hp).2)
          (by positivity)
      · exact hu0
    set u0 := u.getD (get_index ((i : ℤ) % 16) ((i : ℤ) / 16)) 0 with hu0def
    set avg := (if 0 < (neighborsIn ((i : ℤ) % 16) ((i : ℤ) / 16)).length then
          ((neighborsIn ((i : ℤ) % 16) ((i : ℤ) / 16)).map fun p =>
            u.getD (get_index p.1 p.2) 0).sum /
            ((neighborsIn ((i : ℤ) % 16) ((i : ℤ) / 16)).length : ℚ)
        else u.getD (get_index ((i : ℤ) % 16) ((i : ℤ) / 16)) 0) with havgdef
    have key : u0 + a / 2 * (avg - u0) = (1 - a / 2) * u0 + a / 2 * avg := by ring
    rw [key]
    have h1 : 0 ≤ (1 - a / 2) * u0 := mul_nonneg (by linarith) hu0
    have h2 : 0 ≤ a / 2 * avg := mul_nonneg (by linarith) havg
    linarith

theorem diffuse_nonneg_at_zero (a b : ℚ) (u : List ℚ) (x y : ℤ)
    (hx1 : 0 ≤ x) (hx2 : x < 16) (hy1 : 0 ≤ y) (hy2 : y < 16)
    (ha0 : 0 ≤ a) (hb : 0 ≤ b)
    (hu0 : u.getD (get_index x y) 0 = 0)
    (hns : ∀ p ∈ neighborsIn x y, 0 ≤ u.getD (get_index p.1 p.2) 0) :
    0 ≤ (diffuse a b u).getD (get_index x y) 0 := by
  rw [diffuse_getD a b u x y hx1 hx2 hy1 hy2]
  by_cases hbd : isBorder x y = true
  · rw [if_pos hbd]; exact hb
  · rw [if_neg hbd, hu0]
    have havg : 0 ≤ (if 0 < (neighborsIn x y).length then
        ((neighborsIn x y).map fun p => u.getD (get_index p.1 p.2) 0).sum /
          ((neighborsIn x y).length : ℚ)
      else (0 : ℚ)) := by
      split
      · exact div_nonneg (neighbor_sum_nonneg u x y hns) (by positivity)
      · exact le_refl 0
    simp only [sub_zero, zero_add]
    exact mul_nonneg (by linarith) havg

/-! Receptiveness and the inductive invariant. -/

theorem receptive_of_frozen (frozen : List Bool) (x y : ℤ)
    (hf : frozen.getD (get_index x y) false = true) : receptive frozen x y = true := by
  unfold receptive
  rw [hf, Bool.true_or]

theorem is_boundary_of_border (frozen : List Bool) (x y : ℤ)
    (hb : isBorder x y = true) : is_boundary_cell frozen x y = false := by
  unfold is_boundary_cell
  by_cases hf : frozen.getD (get_index x y) false <;> simp [hf, hb]

theorem receptive_of_border (frozen : List Bool) (x y : ℤ)
    (hb : isBorder x y = true) (hf : frozen.getD (get_index x y) false = false) :
    receptive frozen x y = false := by
  unfold receptive
  rw [hf, is_boundary_of_border frozen x y hb, Bool.false_or]

theorem phase1_nonneg (st : SnowflakeState) (h : NonnegGrid st.s) :
    NonnegGrid (phase1 st) := by
  intro i
  have hx := (inBounds_iff _ _).1 (inBounds_of_fin i)
  rw [← get_index_cancel i,
    phase1_getD st _ _ (by omega) (by omega) (by omega) (by omega)]
  by_cases hr : receptive st.frozen ((i : ℤ) % 16) ((i : ℤ) / 16) = true
  · rw [if_pos hr]
  · rw [if_neg hr, get_index_cancel i]
    exact h i

theorem phase1_getD_zero_of_receptive (st : SnowflakeState) (x y : ℤ)
    (hx1 : 0 ≤ x) (hx2 : x < 16) (hy1 : 0 ≤ y) (hy2 : y < 16)
    (hr : receptive st.frozen x y = true) :
    (phase1 st).getD (get_index x y) 0 = 0 := by
  rw [phase1_getD st x y hx1 hx2 hy1 hy2, if_pos hr]

theorem phase1_neighbors_nonneg_of_frozen (st : SnowflakeState) (hinv : Inv st)
    (x y : ℤ) (hin : inBounds x y = true)
    (hf : st.frozen.getD (get_index x y) false = true) :
    ∀ p ∈ neighborsIn x y, 0 ≤ (phase1 st).getD (get_index p.1 p.2) 0 := by
  intro p hp
  obtain ⟨hmem, hbnd⟩ := neighborsIn_mem hp
  have hxy := (inBounds_iff p.1 p.2).1 hbnd
  rw [phase1_getD st p.1 p.2 (by omega) (by omega) (by omega) (by omega)]
  by_cases hr : receptive st.frozen p.1 p.2 = true
  · rw [if_pos hr]
  · rw [if_neg hr]
    simp only [receptive, Bool.or_eq_true, not_or, Bool.not_eq_true] at hr
    by_cases hbd : isBorder p.1 p.2 = true
    · exact (hinv.1 p.1 p.2 hbnd hbd).2
    · exfalso
      have hany : is_boundary_cell st.frozen p.1 p.2 = true := by
        rw [Bool.not_eq_true] at hbd
        unfold is_boundary_cell
        rw [hr.1, if_neg (by simp), hbd, if_neg (by simp), List.any_eq_true]
        refine ⟨(x, y), ?_, ?_⟩
        · exact (hex_neighbors_symm x y p.1 p.2).1 (by simpa using hmem)
        · simp only [Bool.and_eq_true]
          exact ⟨hin, hf⟩
      rw [hany] at hr
      exact Bool.noConfusion hr.2

theorem inv_init (a b g : ℚ) (hv : validParams a b g) : Inv (init_snowflake a b g) := by
  constructor
  · intro x y hin hbd
    have hx := (inBounds_iff x y).1 hin
    have hb8 : ¬(x = 8 ∧ y = 8) := by rw [isBorder_true_iff] at hbd; omega
    rw [init_frozen_getD a b g x y hin, init_s_getD a b g x y hin, if_neg hb8, if_neg hb8]
    have := hv.2.2.1
    exact ⟨rfl, by linarith⟩
  · intro x y hin hf
    rw [init_frozen_getD a b g x y hin] at hf
    by_cases hc : x = 8 ∧ y = 8
    · rw [init_s_getD a b g x y hin, if_pos hc]
    · rw [if_neg hc] at hf
      exact absurd hf (by simp)

theorem frozen_s_lower_bound (st : SnowflakeState)
    (hv : validParams st.alpha st.beta st.gamma) (hinv : Inv st) (x y : ℤ)
    (hin : inBounds x y = true)
    (hf : st.frozen.getD (get_index x y) false = true) :
    st.s.getD (get_index x y) 0 + st.gamma ≤ (grow_snowflake st).s.getD (get_index x y) 0 := by
  have hx := (inBounds_iff x y).1 hin
  have hbd : isBorder x y = false := by
    by_cases h : isBorder x y = true
    · rw [(hinv.1 x y hin h).1] at hf
      exact absurd hf (by simp)
    · rwa [Bool.not_eq_true] at h
  have hrec := receptive_of_frozen st.frozen x y hf
  rw [grow_s_getD st x y (by omega) (by omega) (by omega) (by omega),
    if_neg (by rw [hbd]; simp), if_pos hrec]
  have hdu : 0 ≤ (diffusedU st).getD (get_index x y) 0 := by
    unfold diffusedU
    refine diffuse_nonneg_at_zero st.alpha st.beta (phase1 st) x y
      (by omega) (by omega) (by omega) (by omega) ?_ ?_ ?_ ?_
    · have := hv.1; linarith
    · have := hv.2.2.1; linarith
    · exact phase1_getD_zero_of_receptive st x y (by omega) (by omega) (by omega) (by omega) hrec
    · exact phase1_neighbors_nonneg_of_frozen st hinv x y hin hf
  linarith

theorem grow_frozen_mono (st : SnowflakeState) (hinv : Inv st) (x y : ℤ)
    (hin : inBounds x y = true)
    (hf : st.frozen.getD (get_index x y) false = true) :
    (grow_snowflake st).frozen.getD (get_index x y) false = true := by
  have hx := (inBounds_iff x y).1 hin
  have hbd : isBorder x y = false := by
    by_cases h : isBorder x y = true
    · rw [(hinv.1 x y hin h).1] at hf
      exact absurd hf (by simp)
    · rwa [Bool.not_eq_true] at h
  rw [grow_frozen_getD st x y (by omega) (by omega) (by omega) (by omega),
    if_neg (by rw [hbd]; simp)]
  split
  · rfl
  · exact hf

theorem inv_grow (st : SnowflakeState)
    (hv : validParams st.alpha st.beta st.gamma) (hinv : Inv st) :
    Inv (grow_snowflake st) := by
  constructor
  · intro x y hin hbd
    have hx := (inBounds_iff x y).1 hin
    rw [grow_frozen_getD st x y (by omega) (by omega) (by omega) (by omega),
      grow_s_getD st x y (by omega) (by omega) (by omega) (by omega),
      if_pos hbd, if_pos hbd]
    have := hv.2.2.1
    exact ⟨rfl, by linarith⟩
  · intro x y hin hfz
    have hx := (inBounds_iff x y).1 hin
    rw [grow_frozen_getD st x y (by omega) (by omega) (by omega) (by omega)] at hfz
    rw [grow_s_getD st x y (by omega) (by omega) (by omega) (by omega)]
    by_cases hbd : isBorder x y = true
    · rw [if_pos hbd] at hfz
      exact absurd hfz (by simp)
    · rw [if_neg hbd] at hfz
      rw [if_neg hbd]
      by_cases hcond : receptive st.frozen x y = true ∧
          st.frozen.getD (get_index x y) false = false ∧
          1 ≤ (diffusedU st).getD (get_index x y) 0 + st.s.getD (get_index x y) 0 + st.gamma
      · rw [if_pos hcond.1]
        exact hcond.2.2
      · rw [if_neg hcond] at hfz
        have hrec := receptive_of_frozen st.frozen x y hfz
        rw [if_pos hrec]
        have hs1 : 1 ≤ st.s.getD (get_index x y) 0 := hinv.2 x y hin hfz
        have hdu : 0 ≤ (diffusedU st).getD (get_index x y) 0 := by
          unfold diffusedU
          refine diffuse_nonneg_at_zero st.alpha st.beta (phase1 st) x y
            (by omega) (by omega) (by omega) (by omega) ?_ ?_ ?_ ?_
          · have := hv.1; linarith
          · have := hv.2.2.1; linarith
          · exact phase1_getD_zero_of_receptive st x y
              (by omega) (by omega) (by omega) (by omega) hrec
          · exact phase1_neighbors_nonneg_of_frozen st hinv x y hin hfz
        have hg : (1 : ℚ) / 1000 ≤ st.gamma := hv.2.2.2.2.1
        linarith

theorem reachable_inv (st : SnowflakeState) (h : Reachable st) : Inv st := by
  induction h with
  | init a b g hv => exact inv_init a b g hv
  | step st a b g hr hv ih => exact inv_grow (set_params st a b g) hv ih

/-! Nonnegativity of the whole grid under capped diffusion, and reachability
helpers. -/

theorem nonneg_init (a b g : ℚ) (hb : 0 ≤ b) : NonnegGrid (init_snowflake a b g).s := by
  intro i
  rw [← get_index_cancel i, init_s_getD a b g _ _ (inBounds_of_fin i)]
  split
  · exact zero_le_one
  · exact hb

theorem nonneg_grow (st : SnowflakeState)
    (hv : validParams st.alpha st.beta st.gamma) (hcap : st.alpha ≤ 2)
    (h : NonnegGrid st.s) : NonnegGrid (grow_snowflake st).s := by
  have hdu : NonnegGrid (diffusedU st) := by
    unfold diffusedU
    exact diffuse_nonneg_capped st.alpha st.beta (phase1 st)
      (by have := hv.1; linarith) hcap (by have := hv.2.2.1; linarith)
      (phase1_nonneg st h)
  intro i
  have hx := (inBounds_iff _ _).1 (inBounds_of_fin i)
  rw [← get_index_cancel i,
    grow_s_getD st _ _ (by omega) (by omega) (by omega) (by omega)]
  by_cases hbd : isBorder ((i : ℤ) % 16) ((i : ℤ) / 16) = true
  · rw [if_pos hbd]
    have := hv.2.2.1
    linarith
  · rw [if_neg hbd]
    have hdui : 0 ≤ (diffusedU st).getD (get_index ((i : ℤ) % 16) ((i : ℤ) / 16)) 0 := by
      rw [get_index_cancel i]; exact hdu i
    have hsi : 0 ≤ st.s.getD (get_index ((i : ℤ) % 16) ((i : ℤ) / 16)) 0 := by
      rw [get_index_cancel i]; exact h i
    have hg : (1 : ℚ) / 1000 ≤ st.gamma := hv.2.2.2.2.1
    by_cases hr : receptive st.frozen ((i : ℤ) % 16) ((i : ℤ) / 16) = true
    · rw [if_pos hr]; linarith
    · rw [if_neg hr]; exact hdui

theorem reachableCapped_nonneg (st : SnowflakeState) (h : ReachableCapped st) :
    NonnegGrid st.s := by
  induction h with
  | init a b g hv => exact nonneg_init a b g (by have := hv.1.2.2.1; linarith)
  | step st a b g hr hv ih => exact nonneg_grow (set_params st a b g) hv.1 hv.2 ih

theorem set_params_self (st : SnowflakeState) :
    set_params st st.alpha st.beta st.gamma = st := rfl

theorem reachable_growN_aux (m : ℕ) :
    ∀ st : SnowflakeState, Reachable st → validParams st.alpha st.beta st.gamma →
      Reachable (growN m st) := by
  induction m with
  | zero => intro st h _; exact h
  | succ k ih =>
    intro st h hvp
    show Reachable (growN k (grow_snowflake st))
    refine ih (grow_snowflake st) ?_ ?_
    · have hstep := Reachable.step st st.alpha st.beta st.gamma h hvp
      rwa [set_params_self] at hstep
    · rw [grow_alpha_def, grow_beta_def, grow_gamma_def]
      exact hvp

theorem reachable_growN (a b g : ℚ) (hv : validParams a b g) (n : ℕ) :
    Reachable (growN n (init_snowflake a b g)) :=
  reachable_growN_aux n (init_snowflake a b g) (Reachable.init a b g hv) hv

theorem reachableCapped_growN_aux (m : ℕ) :
    ∀ st : SnowflakeState, ReachableCapped st →
      validParamsCapped st.alpha st.beta st.gamma → ReachableCapped (growN m st) := by
  induction m with
  | zero => intro st h _; exact h
  | succ k ih =>
    intro st h hvp
    show ReachableCapped (growN k (grow_snowflake st))
    refine ih (grow_snowflake st) ?_ ?_
    · have hstep := ReachableCapped.step st st.alpha st.beta st.gamma h hvp
      rwa [set_params_self] at hstep
    · rw [grow_alpha_def, grow_beta_def, grow_gamma_def]
      exact hvp

theorem reachableCapped_growN (a b g : ℚ) (hv : validParamsCapped a b g) (n : ℕ) :
    ReachableCapped (growN n (init_snowflake a b g)) :=
  reachableCapped_growN_aux n (init_snowflake a b g) (ReachableCapped.init a b g hv) hv

/-- Core monotonicity fact behind the amended C5: when every cell's water
content is nonnegative at the start of a step, a receptive non-border cell
gains at least `gamma`. -/
theorem receptive_s_mono (st : SnowflakeState)
    (hv : validParams st.alpha st.beta st.gamma) (hnn : NonnegGrid st.s)
    (x y : ℤ) (hin : inBounds x y = true) (hbd : isBorder x y = false)
    (hr : receptive st.frozen x y = true) :
    st.s.getD (get_index x y) 0 + st.gamma ≤ (grow_snowflake st).s.getD (get_index x y) 0 := by
  have hx := (inBounds_iff x y).1 hin
  rw [grow_s_getD st x y (by omega) (by omega) (by omega) (by omega),
    if_neg (by rw [hbd]; simp), if_pos hr]
  have hdu : 0 ≤ (diffusedU st).getD (get_index x y) 0 := by
    unfold diffusedU
    refine diffuse_nonneg_at_zero st.alpha st.beta (phase1 st) x y
      (by omega) (by omega) (by omega) (by omega) ?_ ?_ ?_ ?_
    · have := hv.1; linarith
    · have := hv.2.2.1; linarith
    · exact phase1_getD_zero_of_receptive st x y (by omega) (by omega) (by omega) (by omega) hr
    · intro p hp
      exact nonnegGrid_getD_xy (phase1_nonneg st hnn) p.1 p.2 (neighborsIn_mem hp).2
  linarith

/-! Claim theorems. -/

/-- C9: immediately after reset, exactly one cell is frozen, namely the grid
center `(8, 8)` with `s = 1`; every other cell has `frozen = false` and
`s = beta`; `u = 0` everywhere; and the step counter is 0. -/
theorem c9_reset_state (a b g : ℚ) (x y : ℤ) (h : inBounds x y = true) :
    frozen_count (init_snowflake a b g) = 1 ∧
    (init_snowflake a b g).step = 0 ∧
    (init_snowflake a b g).frozen.getD (get_index 8 8) false = true ∧
    (init_snowflake a b g).s.getD (get_index 8 8) 0 = 1 ∧
    (init_snowflake a b g).u.getD (get_index x y) 0 = 0 ∧
    (¬(x = 8 ∧ y = 8) →
      (init_snowflake a b g).frozen.getD (get_index x y) false = false ∧
      (init_snowflake a b g).s.getD (get_index x y) 0 = b) := by
  have hc : frozen_count (init_snowflake a b g) =
      ((mkGrid fun _ _ => false).set (get_index 8 8) true).foldl
        (fun n bo => if bo then n + 1 else n) 0 := rfl
  refine ⟨?_, rfl, ?_, ?_, init_u_getD a b g x y h, ?_⟩
  · rw [hc]; decide!
  · rw [init_frozen_getD a b g 8 8 (by decide)]; simp
  · rw [init_s_getD a b g 8 8 (by decide)]; simp
  · intro hne
    rw [init_frozen_getD a b g x y h, if_neg hne, init_s_getD a b g x y h, if_neg hne]
    exact ⟨rfl, rfl⟩

/-- Witness for C9 at concrete parameters `alpha = 1`, `beta = 1/2`,
`gamma = 1/100` and the cell `(0, 0)`. -/
theorem c9_reset_state_witness :
    inBounds 0 0 = true ∧
    (frozen_count (init_snowflake 1 (1/2) (1/100)) = 1 ∧
      (init_snowflake 1 (1/2) (1/100)).step = 0 ∧
      (init_snowflake 1 (1/2) (1/100)).frozen.getD (get_index 8 8) false = true ∧
      (init_snowflake 1 (1/2) (1/100)).s.getD (get_index 8 8) 0 = 1 ∧
      (init_snowflake 1 (1/2) (1/100)).u.getD (get_index 0 0) 0 = 0 ∧
      (¬((0 : ℤ) = 8 ∧ (0 : ℤ) = 8) →
        (init_snowflake 1 (1/2) (1/100)).frozen.getD (get_index 0 0) false = false ∧
        (init_snowflake 1 (1/2) (1/100)).s.getD (get_index 0 0) 0 = 1/2)) :=
  ⟨by decide, c9_reset_state 1 (1/2) (1/100) 0 0 (by decide)⟩

/-- C10: the hexagonal neighbor relation of `get_hex_neighbors` is symmetric:
`(a, b)` is among the six neighbors of `(x, y)` iff `(x, y)` is among the six
neighbors of `(a, b)` (the even-column and odd-column tables agree). -/
theorem c10_hex_neighbors_symmetric (x y a b : ℤ) :
    (a, b) ∈ get_hex_neighbors x y ↔ (x, y) ∈ get_hex_neighbors a b :=
  hex_neighbors_symm x y a b

/-- C2: in phase 3 of a step, for a non-border cell, receptiveness comes from
the pre-step frozen mask; a receptive cell's new `s` is its old `s` plus
`gamma` plus the diffused vapor, and its final frozen mark is set iff it was
frozen already or it was unfrozen with new `s ≥ 1`; a non-receptive cell's
new `s` is the diffused vapor and its frozen mark is unchanged.  All values
are functions of the pre-step state only, which is the atomic commit. -/
theorem c2_phase3 (st : SnowflakeState) (x y : ℤ)
    (hin : inBounds x y = true) (hbd : isBorder x y = false) :
    ((grow_snowflake st).s.getD (get_index x y) 0 =
      if receptive st.frozen x y = true then
        st.s.getD (get_index x y) 0 + st.gamma + (diffusedU st).getD (get_index x y) 0
      else (diffusedU st).getD (get_index x y) 0) ∧
    ((grow_snowflake st).frozen.getD (get_index x y) false = true ↔
      (st.frozen.getD (get_index x y) false = true ∨
        (receptive st.frozen x y = true ∧ st.frozen.getD (get_index x y) false = false ∧
          1 ≤ (grow_snowflake st).s.getD (get_index x y) 0))) := by
  have hx := (inBounds_iff x y).1 hin
  have hbd2 : ¬isBorder x y = true := by rw [hbd]; simp
  have hs : (grow_snowflake st).s.getD (get_index x y) 0 =
      if receptive st.frozen x y = true then
        st.s.getD (get_index x y) 0 + st.gamma + (diffusedU st).getD (get_index x y) 0
      else (diffusedU st).getD (get_index x y) 0 := by
    rw [grow_s_getD st x y (by omega) (by omega) (by omega) (by omega), if_neg hbd2]
    by_cases hr : receptive st.frozen x y = true
    · rw [if_pos hr, if_pos hr]; ring
    · rw [if_neg hr, if_neg hr]
  refine ⟨hs, ?_⟩
  rw [grow_frozen_getD st x y (by omega) (by omega) (by omega) (by omega), if_neg hbd2, hs]
  by_cases hf : st.frozen.getD (get_index x y) false = true
  · rw [if_neg (by rw [hf]; rintro ⟨-, h2, -⟩; exact absurd h2 (by simp)), hf]
    simp
  · rw [Bool.not_eq_true] at hf
    by_cases hr : receptive st.frozen x y = true
    · rw [hf, if_pos hr]
      by_cases hth : 1 ≤ (diffusedU st).getD (get_index x y) 0 +
          st.s.getD (get_index x y) 0 + st.gamma
      · rw [if_pos ⟨hr, rfl, hth⟩]
        simp only [true_iff]
        right
        exact ⟨hr, by trivial, by linarith⟩
      · rw [if_neg (by rintro ⟨-, -, h3⟩; exact hth h3)]
        simp only [Bool.false_eq_true, false_iff, not_or]
        refine ⟨by simp, ?_⟩
        rintro ⟨-, -, h3⟩
        exact hth (by linarith)
    · rw [if_neg (by rintro ⟨h1, -, -⟩; exact hr h1), hf, if_neg hr]
      simp only [Bool.false_eq_true, false_iff, not_or]
      exact ⟨by simp, by rintro ⟨h1, -, -⟩; exact hr h1⟩

/-- Witness for C2 at the reset state with `alpha = 1`, `beta = 1/2`,
`gamma = 1/100` and the non-border cell `(8, 7)`. -/
theorem c2_phase3_witness :
    inBounds 8 7 = true ∧ isBorder 8 7 = false ∧
    (((grow_snowflake (init_snowflake 1 (1/2) (1/100))).s.getD (get_index 8 7) 0 =
      if receptive (init_snowflake 1 (1/2) (1/100)).frozen 8 7 = true then
        (init_snowflake 1 (1/2) (1/100)).s.getD (get_index 8 7) 0 +
          (init_snowflake 1 (1/2) (1/100)).gamma +
          (diffusedU (init_snowflake 1 (1/2) (1/100))).getD (get_index 8 7) 0
      else (diffusedU (init_snowflake 1 (1/2) (1/100))).getD (get_index 8 7) 0) ∧
    ((grow_snowflake (init_snowflake 1 (1/2) (1/100))).frozen.getD (get_index 8 7) false = true ↔
      ((init_snowflake 1 (1/2) (1/100)).frozen.getD (get_index 8 7) false = true ∨
        (receptive (init_snowflake 1 (1/2) (1/100)).frozen 8 7 = true ∧
          (init_snowflake 1 (1/2) (1/100)).frozen.getD (get_index 8 7) false = false ∧
          1 ≤ (grow_snowflake (init_snowflake 1 (1/2) (1/100))).s.getD (get_index 8 7) 0)))) :=
  ⟨by decide, by decide, c2_phase3 (init_snowflake 1 (1/2) (1/100)) 8 7 (by decide) (by decide)⟩

/-- C6: over any step from a reachable state with valid parameters, the
frozen set only grows: a frozen cell stays frozen. -/
theorem c6_frozen_superset (st : SnowflakeState) (a b g : ℚ) (x y : ℤ)
    (hr : Reachable st) (hv : validParams a b g) (hin : inBounds x y = true)
    (hf : st.frozen.getD (get_index x y) false = true) :
    (grow_snowflake (set_params st a b g)).frozen.getD (get_index x y) false = true :=
  grow_frozen_mono (set_params st a b g) (reachable_inv st hr) x y hin hf

/-- Witness for C6: the center cell of the reset state stays frozen over one
step. -/
theorem c6_frozen_superset_witness :
    validParams 1 (1/2) (1/100) ∧ inBounds 8 8 = true ∧
    (init_snowflake 1 (1/2) (1/100)).frozen.getD (get_index 8 8) false = true ∧
    (grow_snowflake (set_params (init_snowflake 1 (1/2) (1/100)) 1 (1/2) (1/100))).frozen.getD
      (get_index 8 8) false = true :=
  ⟨by decide!, by decide, by decide!,
    c6_frozen_superset (init_snowflake 1 (1/2) (1/100)) 1 (1/2) (1/100) 8 8
      (Reachable.init 1 (1/2) (1/100) (by decide!)) (by decide!) (by decide) (by decide!)⟩

/-- C7: in any reachable state a frozen cell has `s ≥ 1`, and after one more
step with any valid parameters it is still frozen with `s ≥ 1`. -/
theorem c7_frozen_s_ge_one (st : SnowflakeState) (x y : ℤ)
    (hr : Reachable st) (hin : inBounds x y = true)
    (hf : st.frozen.getD (get_index x y) false = true) :
    1 ≤ st.s.getD (get_index x y) 0 ∧
    ∀ a b g : ℚ, validParams a b g →
      ((grow_snowflake (set_params st a b g)).frozen.getD (get_index x y) false = true ∧
        1 ≤ (grow_snowflake (set_params st a b g)).s.getD (get_index x y) 0) := by
  have hinv := reachable_inv st hr
  refine ⟨hinv.2 x y hin hf, ?_⟩
  intro a b g hv
  have hr2 : Reachable (grow_snowflake (set_params st a b g)) := Reachable.step st a b g hr hv
  have hinv2 := reachable_inv _ hr2
  have hfz2 : (grow_snowflake (set_params st a b g)).frozen.getD (get_index x y) false = true :=
    grow_frozen_mono (set_params st a b g) hinv x y hin hf
  exact ⟨hfz2, hinv2.2 x y hin hfz2⟩

/-- Witness for C7 at the reset state and the center cell. -/
theorem c7_frozen_s_ge_one_witness :
    inBounds 8 8 = true ∧
    (init_snowflake 1 (1/2) (1/100)).frozen.getD (get_index 8 8) false = true ∧
    1 ≤ (init_snowflake 1 (1/2) (1/100)).s.getD (get_index 8 8) 0 :=
  ⟨by decide, by decide!,
    (c7_frozen_s_ge_one (init_snowflake 1 (1/2) (1/100)) 8 8
      (Reachable.init 1 (1/2) (1/100) (by decide!)) (by decide) (by decide!)).1⟩

/-- C8: in any reachable state a border-ring cell is unfrozen and not
receptive, and after one more step with any valid parameters it is still
unfrozen with both `u` and `s` pinned to that step's `beta`. -/
theorem c8_border_pinned (st : SnowflakeState) (x y : ℤ)
    (hr : Reachable st) (hin : inBounds x y = true) (hbd : isBorder x y = true) :
    st.frozen.getD (get_index x y) false = false ∧
    receptive st.frozen x y = false ∧
    ∀ a b g : ℚ, validParams a b g →
      ((grow_snowflake (set_params st a b g)).frozen.getD (get_index x y) false = false ∧
        (grow_snowflake (set_params st a b g)).u.getD (get_index x y) 0 = b ∧
        (grow_snowflake (set_params st a b g)).s.getD (get_index x y) 0 = b) := by
  have hinv := reachable_inv st hr
  have hx := (inBounds_iff x y).1 hin
  have hfz := (hinv.1 x y hin hbd).1
  refine ⟨hfz, receptive_of_border st.frozen x y hbd hfz, ?_⟩
  intro a b g hv
  refine ⟨?_, ?_, ?_⟩
  · rw [grow_frozen_getD _ x y (by omega) (by omega) (by omega) (by omega), if_pos hbd]
  · rw [grow_u_def]
    show (diffuse a b (phase1 (set_params st a b g))).getD (get_index x y) 0 = b
    rw [diffuse_getD a b _ x y (by omega) (by omega) (by omega) (by omega), if_pos hbd]
  · rw [grow_s_getD _ x y (by omega) (by omega) (by omega) (by omega), if_pos hbd]
    rfl

/-- Witness for C8 at the reset state and the corner cell `(0, 0)`. -/
theorem c8_border_pinned_witness :
    inBounds 0 0 = true ∧ isBorder 0 0 = true ∧
    (init_snowflake 1 (1/2) (1/100)).frozen.getD (get_index 0 0) false = false ∧
    receptive (init_snowflake 1 (1/2) (1/100)).frozen 0 0 = false :=
  ⟨by decide, by decide, by decide!,
    ((c8_border_pinned (init_snowflake 1 (1/2) (1/100)) 0 0
      (Reachable.init 1 (1/2) (1/100) (by decide!)) (by decide) (by decide)).2).1⟩

/-- C1 counterexample: the trajectory `traj3` (reset with `alpha = 5`,
`beta = 1/10`, `gamma = 1/1000`, then three steps with those same valid
parameters) is reachable, yet cell `(7, 6)` has water content below zero:
with `alpha > 2` the diffusion update has a negative coefficient
`1 - alpha/2` on the cell's own vapor and can overshoot below zero. -/
theorem c1_counterexample :
    Reachable traj3 ∧ inBounds 7 6 = true ∧ traj3.s.getD (get_index 7 6) 0 < 0 :=
  ⟨reachable_growN 5 (1/10) (1/1000) (by decide!) 3, by decide, by decide!⟩

/-- C1 amended: for every cell and after every sequence of reset and step
calls whose parameters are valid and additionally have `alpha ≤ 2`, the
water content `s` of that cell is nonnegative. -/
theorem c1_amended_nonneg (st : SnowflakeState) (x y : ℤ)
    (hr : ReachableCapped st) (hin : inBounds x y = true) :
    0 ≤ st.s.getD (get_index x y) 0 :=
  nonnegGrid_getD_xy (reachableCapped_nonneg st hr) x y hin

/-- Witness for the amended C1 at the reset state with `alpha = 1`. -/
theorem c1_amended_nonneg_witness :
    validParamsCapped 1 (1/2) (1/100) ∧ inBounds 7 6 = true ∧
    0 ≤ (init_snowflake 1 (1/2) (1/100)).s.getD (get_index 7 6) 0 :=
  ⟨by decide!, by decide,
    c1_amended_nonneg (init_snowflake 1 (1/2) (1/100)) 7 6
      (ReachableCapped.init 1 (1/2) (1/100) (by decide!)) (by decide)⟩

/-- C3 counterexample: with `gamma = 0` and the other parameters valid
(`alpha = 1`, `beta = 9/10`), the frozen count does not remain 1: it changes
already after one step, because a receptive cell's update adds the diffused
vapor, which is independent of `gamma`. -/
theorem c3_counterexample :
    ¬frozen_count (growN 1 (init_snowflake 1 (9/10) 0)) = 1 := by decide!

/-- C3 amended: with `gamma = 0`, `alpha = 1` and `beta = 9/10` the frozen
count is 1 after reset but 7 after a single step: growth does not require
the background vapor because receptive cells also accumulate the diffused
vapor. -/
theorem c3_amended_growth :
    frozen_count (init_snowflake 1 (9/10) 0) = 1 ∧
    frozen_count (growN 1 (init_snowflake 1 (9/10) 0)) = 7 :=
  ⟨by decide!, by decide!⟩

/-- The all-allocations-succeed run of `grow_snowflake_alloc` is exactly
`grow_snowflake`. -/
theorem grow_snowflake_alloc_ok (st : SnowflakeState) :
    grow_snowflake_alloc true true true st = grow_snowflake st := rfl

/-- C4: if any of the three transient buffer allocations fails, the aborted
step leaves `s`, `frozen` and the step counter exactly as they were.  The
reporting half of the claim is however impossible: the C function returns
`void` and simply `return`s on failure, so the model has no error channel at
all and the caller cannot observe the failure (moreover, when the phase-3
allocations fail, `u` has already been overwritten). -/
theorem c4_alloc_failure (st : SnowflakeState) (okU okS okF : Bool)
    (h : okU = false ∨ okS = false ∨ okF = false) :
    (grow_snowflake_alloc okU okS okF st).s = st.s ∧
    (grow_snowflake_alloc okU okS okF st).frozen = st.frozen ∧
    (grow_snowflake_alloc okU okS okF st).step = st.step := by
  unfold grow_snowflake_alloc
  by_cases hU : okU = false
  · rw [if_pos hU]
    exact ⟨rfl, rfl, rfl⟩
  · rw [if_neg hU]
    have h2 : okS = false ∨ okF = false := by
      rcases h with h | h | h
      · exact absurd h hU
      · exact Or.inl h
      · exact Or.inr h
    rw [if_pos h2]
    exact ⟨rfl, rfl, rfl⟩

/-- Witness for C4: the first allocation fails on the reset state. -/
theorem c4_alloc_failure_witness :
    (false = false ∨ true = false ∨ true = false) ∧
    ((grow_snowflake_alloc false true true (init_snowflake 1 (1/2) (1/100))).s =
        (init_snowflake 1 (1/2) (1/100)).s ∧
      (grow_snowflake_alloc false true true (init_snowflake 1 (1/2) (1/100))).frozen =
        (init_snowflake 1 (1/2) (1/100)).frozen ∧
      (grow_snowflake_alloc false true true (init_snowflake 1 (1/2) (1/100))).step =
        (init_snowflake 1 (1/2) (1/100)).step) :=
  ⟨Or.inl rfl,
    c4_alloc_failure (init_snowflake 1 (1/2) (1/100)) false true true (Or.inl rfl)⟩

/-- C5 counterexample: in the reachable state `traj3` (valid parameters,
`alpha = 5`), the non-border cell `(7, 7)` is receptive at the start of the
next step, yet its water content strictly decreases over that step: its
diffused-vapor contribution is negative because a neighboring cell's `s`
went negative earlier in the trajectory. -/
theorem c5_counterexample :
    Reachable traj3 ∧ validParams traj3.alpha traj3.beta traj3.gamma ∧
    inBounds 7 7 = true ∧ isBorder 7 7 = false ∧
    receptive traj3.frozen 7 7 = true ∧
    (grow_snowflake traj3).s.getD (get_index 7 7) 0 < traj3.s.getD (get_index 7 7) 0 :=
  ⟨reachable_growN 5 (1/10) (1/1000) (by decide!) 3, by decide!, by decide, by decide,
    by decide!, by decide!⟩

/-- C5 amended: for a cell that is receptive at the start of a step (frozen
or unfrozen with a frozen neighbor, not in the border ring), if every cell's
water content is nonnegative when the step starts — as is the case in every
state reachable with `alpha ≤ 2` — then its water content does not decrease
over the step. -/
theorem c5_amended_monotone (st : SnowflakeState) (x y : ℤ)
    (hv : validParams st.alpha st.beta st.gamma) (hnn : NonnegGrid st.s)
    (hin : inBounds x y = true) (hbd : isBorder x y = false)
    (hr : receptive st.frozen x y = true) :
    st.s.getD (get_index x y) 0 ≤ (grow_snowflake st).s.getD (get_index x y) 0 := by
  have hmono := receptive_s_mono st hv hnn x y hin hbd hr
  have hg : (1 : ℚ) / 1000 ≤ st.gamma := hv.2.2.2.2.1
  linarith

/-- Witness for the amended C5 at the reset state and the frozen center. -/
theorem c5_amended_monotone_witness :
    validParams (init_snowflake 1 (1/2) (1/100)).alpha (init_snowflake 1 (1/2) (1/100)).beta
      (init_snowflake 1 (1/2) (1/100)).gamma ∧
    NonnegGrid (init_snowflake 1 (1/2) (1/100)).s ∧
    inBounds 8 8 = true ∧ isBorder 8 8 = false ∧
    receptive (init_snowflake 1 (1/2) (1/100)).frozen 8 8 = true ∧
    (init_snowflake 1 (1/2) (1/100)).s.getD (get_index 8 8) 0 ≤
      (grow_snowflake (init_snowflake 1 (1/2) (1/100))).s.getD (get_index 8 8) 0 :=
  ⟨by decide!, by decide!, by decide, by decide, by decide!,
    c5_amended_monotone (init_snowflake 1 (1/2) (1/100)) 8 8 (by decide!) (by decide!)
      (by decide) (by decide) (by decide!)⟩

end Snowflake
